import Mathlib

/-!
Verification of the `pubs` repository core (`src/pubs/repo.py`).

The embedding below translates `repo.py` into Lean. The collaborators that
`repo.py` imports but whose code is not part of the source sample
(`DataCache` from `datacache.py`, `Paper` from `paper.py`,
`bibstruct.check_citekey`, the `events` module) are modelled from the
specification, each marked with a doc comment starting `Modelled from the
spec:`. The repository code itself (`Repository.pull_paper`, `push_paper`,
`remove_paper`, `rename_paper`, `unique_citekey`, `_base27`) is translated
line by line from `repo.py`.

Conventions of the embedding:
* Python exceptions become an explicit `RepoError` value in the result of
  each operation; the result also carries the file-store state as it is at
  the moment the exception propagates (mutations made before the raise are
  kept, exactly as in Python).
* The in-place mutation of the caller's `paper` object is made explicit:
  mutating operations return the paper as the caller observes it afterwards.
* The lazily loaded citekey index (`Repository._citekeys`) is modelled in
  its loaded state: `RepoState.citekeys` is the index set (a duplicate-free
  list standing for the Python `set`). Python's `set.add` is `setAdd`;
  `set.remove`, which raises `KeyError` on a missing element, is translated
  faithfully in `remove_paper`.
* Fired events are collected in the result instead of being sent to
  observers (the event layer is fire-and-forget per the spec).
-/

/-- Modelled from the spec: the per-paper metadata mapping (section 3):
tags, the added-date timestamp (timestamps are modelled as naturals) and
the optional document path `docfile`. -/
structure Metadata where
  tags : List String
  added : Option Nat
  docfile : Option String
deriving DecidableEq, Repr

/-- Modelled from the spec: the Paper entity (sections 3 and 4.3), an
in-memory aggregate of citekey, bibliographic record and metadata. The
bibliographic record is opaque to the repository core and modelled as a
string. The `docpath` field is derived from `metadata.docfile` (section 3)
via `Paper.docpath` below, and assigning to it writes `metadata.docfile`. -/
structure Paper where
  citekey : String
  bibdata : String
  metadata : Metadata
deriving DecidableEq, Repr

/-- Modelled from the spec: `paper.docpath`, the resolved path of the
attached document, derived from the metadata's `docfile` entry. -/
def Paper.docpath (p : Paper) : Option String :=
  p.metadata.docfile

/-- Modelled from the spec: assignment `paper.docpath = path`, which
records the document path in the metadata. -/
def Paper.setDocpath (p : Paper) (path : String) : Paper :=
  { p with metadata := { p.metadata with docfile := some path } }

/-- Modelled from the spec: `paper.added`, the creation timestamp kept in
the metadata mapping. -/
def Paper.added (p : Paper) : Option Nat :=
  p.metadata.added

/-- Association-list lookup, keyed by citekey: the read side of the
filesystem stores. -/
def alookup {α : Type} : List (String × α) → String → Option α
  | [], _ => none
  | (k, v) :: l, k' => if k' = k then some v else alookup l k'

/-- Association-list overwrite-insert: the write side of the filesystem
stores (overwrite semantics per spec section 4.2). -/
def ainsert {α : Type} (l : List (String × α)) (k : String) (v : α) :
    List (String × α) :=
  (k, v) :: l.filter (fun kv => ¬ kv.1 = k)

/-- Association-list deletion, silent if the key is absent. -/
def aremove {α : Type} (l : List (String × α)) (k : String) :
    List (String × α) :=
  l.filter (fun kv => ¬ kv.1 = k)

/-- Python `set.add` on the index, modelled on a duplicate-free list. -/
def setAdd (l : List String) (k : String) : List String :=
  if k ∈ l then l else l ++ [k]

/-- Modelled from the spec: the Content Store state (section 4.2, the
`DataCache` the repository is built on): the bibdata store and metadata
store keyed by citekey, the set of document file paths present on disk
(managed ones live under the docs directory), and the set of citekeys that
have a note file. -/
structure DataCache where
  bib : List (String × String)
  meta : List (String × Metadata)
  files : List String
  notes : List String
deriving DecidableEq, Repr

/-- Modelled from the spec: `databroker.exists(citekey, meta_check)`
(section 4.2 `exists(citekey, require_both_bib_and_meta)`): the bibdata
artifact must exist, and when `metaCheck` is set the metadata artifact must
exist as well. -/
def dbExists (db : DataCache) (ck : String) (metaCheck : Bool) : Bool :=
  (alookup db.bib ck).isSome && (!metaCheck || (alookup db.meta ck).isSome)

/-- Modelled from the spec: `databroker.push_bibdata` (overwrite
semantics). -/
def push_bibdata (db : DataCache) (ck : String) (bib : String) : DataCache :=
  { db with bib := ainsert db.bib ck bib }

/-- Modelled from the spec: `databroker.push_metadata` (overwrite
semantics). -/
def push_metadata (db : DataCache) (ck : String) (md : Metadata) : DataCache :=
  { db with meta := ainsert db.meta ck md }

/-- Modelled from the spec: `databroker.remove(citekey)` deletes the
bibdata and metadata files, silently if already absent. -/
def dbRemove (db : DataCache) (ck : String) : DataCache :=
  { db with bib := aremove db.bib ck, meta := aremove db.meta ck }

/-- The managed path a document gets when filed under a citekey in the
documents directory. -/
def docsdirPath (ck : String) : String :=
  "docs/" ++ ck

/-- Modelled from the spec: `databroker.in_docsdir(path)` — whether a
document path lies inside the managed documents directory. An absent
docpath is not in the docs directory. -/
def in_docsdir : Option String → Bool
  | none => false
  | some p => "docs/".data.isPrefixOf p.data

/-- Modelled from the spec: `databroker.rename_doc(old_path, new_citekey)`
physically renames the document file to reflect the new citekey and
returns the new path. -/
def rename_doc (db : DataCache) (oldPath : String) (newCk : String) :
    DataCache × String :=
  let newPath := docsdirPath newCk
  ({ db with files := setAdd (db.files.erase oldPath) newPath }, newPath)

/-- Modelled from the spec: `databroker.remove_doc(docpath, silent=True)`
as called by `remove_paper`: deletes the file at the given path; with
`silent` a missing target (including a `None` docpath) is swallowed. -/
def remove_doc (db : DataCache) (path : Option String) : DataCache :=
  match path with
  | none => db
  | some p => { db with files := db.files.erase p }

/-- Modelled from the spec: `databroker.remove_note(citekey, silent=True)`:
deletes the note artifact of the citekey, silently if absent. -/
def remove_note (db : DataCache) (ck : String) : DataCache :=
  { db with notes := db.notes.erase ck }

/-- Modelled from the spec: `databroker.rename_note(old, new)` wrapped in
the `try/except IOError` of `rename_paper` (repo.py lines 117-120): when
the old note exists it is renamed, otherwise the `IOError` is swallowed
and nothing happens. -/
def rename_note_caught (db : DataCache) (old new : String) : DataCache :=
  if old ∈ db.notes then
    { db with notes := setAdd (db.notes.erase old) new }
  else
    db

/-- Modelled from the spec: `bibstruct.check_citekey` (section 4.1
`validate`): rejects the empty string and strings containing a path
separator. -/
def check_citekey (k : String) : Bool :=
  (k != "") && !(k.data.contains '/')

/-- The exceptions an operation of `repo.py` can raise. `keyError` is
Python's builtin `KeyError`, raised by `set.remove` on a missing element. -/
inductive RepoError where
  | citeKeyCollision
  | invalidReference
  | invalidCitekey
  | keyError
deriving DecidableEq, Repr

/-- Modelled from the spec: the notifications of the `events` module
(sections 4.5 and 6): `AddEvent(citekey)`, `RemoveEvent(citekey)` and
`RenameEvent(paper, old_citekey)`. -/
inductive Event where
  | add (ck : String)
  | remove (ck : String)
  | rename (p : Paper) (old : String)
deriving DecidableEq, Repr

/-- The repository state: the (loaded) citekey index and the backing
Content Store. -/
structure RepoState where
  citekeys : List String
  db : DataCache
deriving DecidableEq, Repr

/-- Result of a mutating repository operation that takes a paper: the
caller's paper object as it stands after the call (Python mutates it in
place), the store state when the call returns or the exception propagates,
the events fired, and the exception if one was raised. -/
structure OpResult where
  paper : Paper
  state : RepoState
  events : List Event
  err : Option RepoError
deriving DecidableEq, Repr

/-- Result of `remove_paper`: the store state, the fired events and the
exception if one was raised. -/
structure RemoveResult where
  state : RepoState
  events : List Event
  err : Option RepoError
deriving DecidableEq, Repr

/-- Translation of `Repository.pull_paper` (repo.py lines 52-60): requires
the store to have both bibdata and metadata (`exists(citekey,
meta_check=True)`), builds the Paper from them, and otherwise raises
`InvalidReference`. -/
def pull_paper (s : RepoState) (ck : String) : Except RepoError Paper :=
  if dbExists s.db ck true then
    match alookup s.db.bib ck, alookup s.db.meta ck with
    | some bib, some md => Except.ok { citekey := ck, bibdata := bib, metadata := md }
    | _, _ => Except.error RepoError.invalidReference
  else
    Except.error RepoError.invalidReference

/-- Translation of `Repository.push_paper` (repo.py lines 62-78):
validate the citekey; without `overwrite`, fail with `CiteKeyCollision` if
the citekey exists in the store (`meta_check=False`) or in the index;
stamp `paper.added` with the current time if unset; write bibdata then
metadata; add the citekey to the index; fire `AddEvent` if requested. -/
def push_paper (s : RepoState) (p : Paper) (overwrite : Bool) (event : Bool)
    (now : Nat) : OpResult :=
  if ¬ check_citekey p.citekey then
    ⟨p, s, [], some RepoError.invalidCitekey⟩
  else if ¬ overwrite ∧ (dbExists s.db p.citekey false = true ∨ p.citekey ∈ s.citekeys) then
    ⟨p, s, [], some RepoError.citeKeyCollision⟩
  else
    let p := if (Paper.added p).isNone then
        { p with metadata := { p.metadata with added := some now } }
      else p
    let db := push_metadata (push_bibdata s.db p.citekey p.bibdata) p.citekey p.metadata
    ⟨p, ⟨setAdd s.citekeys p.citekey, db⟩,
      if event then [Event.add p.citekey] else [], none⟩

/-- Translation of `Repository.remove_paper` (repo.py lines 80-96): fire
`RemoveEvent` if requested; with `removeDoc`, read the metadata to find
the document path and silently delete document and note (the whole block
is inside `try/except IOError`, so a missing metadata file aborts just
that block); then `self.citekeys.remove(citekey)` — Python `set.remove`,
which raises `KeyError` when the citekey is not in the index — and finally
delete bibdata and metadata from the store. -/
def remove_paper (s : RepoState) (ck : String) (removeDoc : Bool)
    (event : Bool) : RemoveResult :=
  let evs := if event then [Event.remove ck] else []
  let db1 :=
    if removeDoc then
      match alookup s.db.meta ck with
      | some md => remove_note (remove_doc s.db md.docfile) ck
      | none => s.db
    else s.db
  if ck ∈ s.citekeys then
    ⟨⟨s.citekeys.erase ck, dbRemove db1 ck⟩, evs, none⟩
  else
    ⟨⟨s.citekeys, db1⟩, evs, some RepoError.keyError⟩

/-- Translation of `Repository.rename_paper` (repo.py lines 98-126):
default the missing key arguments from `paper.citekey`, assign
`paper.citekey = new_citekey` (before any check), and either delegate to
`push_paper(paper, overwrite=True, event=False)` when the keys coincide,
or: fail with `CiteKeyCollision` if the new citekey is in the index;
physically move the document when it lies in the docs directory and update
`paper.docpath`; best-effort rename the note; `push_paper(paper,
event=False)` (overwrite defaults to `False`); `remove_paper(old_citekey,
event=False)` (`remove_doc` defaults to `True`); fire `RenameEvent`. -/
def rename_paper (s : RepoState) (paper : Paper) (newCk : Option String)
    (oldCk : Option String) (now : Nat) : OpResult :=
  let old := oldCk.getD paper.citekey
  let new := newCk.getD paper.citekey
  let paper := { paper with citekey := new }
  if old = new then
    push_paper s paper true false now
  else if new ∈ s.citekeys then
    ⟨paper, s, [], some RepoError.citeKeyCollision⟩
  else
    let moved :=
      if in_docsdir (Paper.docpath paper) then
        match Paper.docpath paper with
        | some dp =>
          let r := rename_doc s.db dp new
          (r.1, Paper.setDocpath paper r.2)
        | none => (s.db, paper)
      else (s.db, paper)
    let db2 := rename_note_caught moved.1 old new
    let s1 : RepoState := ⟨s.citekeys, db2⟩
    let r := push_paper s1 moved.2 false false now
    match r.err with
    | some e => ⟨r.paper, r.state, [], some e⟩
    | none =>
      let r2 := remove_paper r.state old true false
      match r2.err with
      | some e => ⟨r.paper, r2.state, [], some e⟩
      | none => ⟨r.paper, r2.state, [Event.rename r.paper old], none⟩

/-- Translation of `_base27` (repo.py lines 11-12):
`_base27(n) = _base27((n - 1) // 26) + chr(ord('a') + (n - 1) % 26)` when
`n` is nonzero, and the empty string for `n = 0` — the bijective base-26
lowercase-letter sequence. -/
def _base27 (n : Nat) : String :=
  if n = 0 then ""
  else _base27 ((n - 1) / 26) ++ (Char.ofNat ('a'.toNat + (n - 1) % 26)).toString
decreasing_by
  have hd := Nat.div_le_self (n - 1) 26
  omega

theorem base27_zero : _base27 0 = "" := by
  unfold _base27
  rfl

theorem base27_data (n : Nat) (h : n ≠ 0) :
    (_base27 n).data =
      (_base27 ((n - 1) / 26)).data ++ [Char.ofNat ('a'.toNat + (n - 1) % 26)] := by
  conv_lhs => rw [_base27]
  simp [h, String.data_append, Char.toString]

theorem base27_ne_empty (n : Nat) (h : n ≠ 0) : _base27 n ≠ "" := by
  intro he
  have := congrArg String.data he
  rw [base27_data n h] at this
  simp at this

theorem char_of_letter_inj :
    ∀ x, x < 26 → ∀ y, y < 26 →
      Char.ofNat ('a'.toNat + x) = Char.ofNat ('a'.toNat + y) → x = y := by
  decide

theorem base27_injective : Function.Injective _base27 := by
  intro a
  induction a using Nat.strong_induction_on with
  | _ a ih =>
    intro b h
    rcases Nat.eq_zero_or_pos a with ha | ha
    · rcases Nat.eq_zero_or_pos b with hb | hb
      · omega
      · subst ha
        exact absurd (base27_zero ▸ h.symm) (base27_ne_empty b (by omega))
    · rcases Nat.eq_zero_or_pos b with hb | hb
      · subst hb
        exact absurd (base27_zero ▸ h) (base27_ne_empty a (by omega))
      · have hd := congrArg String.data h
        rw [base27_data a (by omega), base27_data b (by omega)] at hd
        rw [← List.concat_eq_append, ← List.concat_eq_append] at hd
        have hpre := (List.concat_inj.mp hd).1
        have hch := (List.concat_inj.mp hd).2
        have hmod : (a - 1) % 26 = (b - 1) % 26 :=
          char_of_letter_inj _ (Nat.mod_lt _ (by omega)) _ (Nat.mod_lt _ (by omega)) hch
        have hdiv : (a - 1) / 26 = (b - 1) / 26 := by
          have hlt : (a - 1) / 26 < a := by
            have := Nat.div_le_self (a - 1) 26
            omega
          exact ih _ hlt (String.ext hpre)
        have h1 := Nat.div_add_mod (a - 1) 26
        have h2 := Nat.div_add_mod (b - 1) 26
        omega

theorem base27_suffix_injective (base : String) :
    Function.Injective (fun n => base ++ _base27 n) := by
  intro m n h
  apply base27_injective
  apply String.ext
  have := congrArg String.data h
  simp only [String.data_append] at this
  exact List.append_cancel_left this

/-- Termination of the `unique_citekey` search: among any finite key set
some `base ++ _base27 n` is free, because the suffix function is injective
and there are more candidate keys than existing ones. -/
theorem exists_free_suffix (base : String) (keys : List String) :
    ∃ n, base ++ _base27 n ∉ keys := by
  by_contra hall
  push_neg at hall
  have hsub : (Finset.range (keys.length + 1)).image (fun n => base ++ _base27 n)
      ⊆ keys.toFinset := by
    intro x hx
    rcases Finset.mem_image.mp hx with ⟨n, _, rfl⟩
    exact List.mem_toFinset.mpr (hall n)
  have hcard := Finset.card_le_card hsub
  rw [Finset.card_image_of_injective _ (base27_suffix_injective base),
    Finset.card_range] at hcard
  have := List.toFinset_card_le keys
  omega

/-- Translation of `Repository.unique_citekey` (repo.py lines 139-143):
iterate `n = 0, 1, 2, …` and return `base_key + _base27(n)` for the first
`n` whose key is not among the existing citekeys. The first such `n` is
`Nat.find` of `exists_free_suffix`. -/
def unique_citekey (s : RepoState) (base : String) : String :=
  base ++ _base27 (Nat.find (exists_free_suffix base s.citekeys))

/-- The empty Content Store: a freshly created repository directory. -/
def emptyCache : DataCache := ⟨[], [], [], []⟩

/-- A repository whose index holds the given citekeys over an empty store. -/
def mkKeys (keys : List String) : RepoState := ⟨keys, emptyCache⟩

/-- The citekeys taken after 26 suffix collisions on base key smith2020:
the base key itself and the 26 single-letter-suffixed variants. -/
def smith27 : List String :=
  ["smith2020", "smith2020a", "smith2020b", "smith2020c", "smith2020d", "smith2020e",
   "smith2020f", "smith2020g", "smith2020h", "smith2020i", "smith2020j", "smith2020k",
   "smith2020l", "smith2020m", "smith2020n", "smith2020o", "smith2020p", "smith2020q",
   "smith2020r", "smith2020s", "smith2020t", "smith2020u", "smith2020v", "smith2020w",
   "smith2020x", "smith2020y", "smith2020z"]

/-- Sample metadata used by the concrete instances below. -/
def sampleMeta : Metadata := ⟨["t1"], some 1, none⟩

/-- A sample paper with citekey smith2020. -/
def samplePaper : Paper := ⟨"smith2020", "B1", sampleMeta⟩

/-- A sample paper with citekey a. -/
def paperA : Paper := ⟨"a", "B", sampleMeta⟩

/-- Metadata pointing at an external (non-managed) document path. -/
def extMeta : Metadata := ⟨[], some 1, some "ext.pdf"⟩

/-- A stored paper whose attached document lives outside the docs
directory. -/
def extPaper : Paper := ⟨"old", "B", extMeta⟩

/-- A repository holding `extPaper` under citekey old, with the external
document file present on disk. -/
def extState : RepoState := ⟨["old"], ⟨[("old", "B")], [("old", extMeta)], ["ext.pdf"], []⟩⟩

/-- Metadata pointing at a managed document path inside the docs
directory. -/
def docMeta : Metadata := ⟨[], some 1, some "docs/old"⟩

/-- A stored paper whose attached document lives inside the docs
directory. -/
def docPaper : Paper := ⟨"old", "B", docMeta⟩

/-- A repository holding `docPaper` under citekey old, with the managed
document file present on disk. -/
def docState : RepoState := ⟨["old"], ⟨[("old", "B")], [("old", docMeta)], ["docs/old"], []⟩⟩

theorem alookup_ainsert {α : Type} (l : List (String × α)) (k : String) (v : α) :
    alookup (ainsert l k v) k = some v := by
  simp [alookup, ainsert]

theorem alookup_filter_ne {α : Type} (l : List (String × α)) (k k' : String)
    (h : k' ≠ k) :
    alookup (l.filter fun kv => ¬ kv.1 = k) k' = alookup l k' := by
  induction l with
  | nil => rfl
  | cons hd tl ih =>
    by_cases hh : hd.1 = k
    · rw [show (hd :: tl).filter (fun kv => ¬ kv.1 = k) = tl.filter (fun kv => ¬ kv.1 = k) by
        simp [List.filter, hh]]
      rw [ih]
      obtain ⟨a, b⟩ := hd
      simp only [alookup]
      rw [if_neg (by simp_all)]
    · rw [show (hd :: tl).filter (fun kv => ¬ kv.1 = k) = hd :: tl.filter (fun kv => ¬ kv.1 = k) by
        simp [List.filter, hh]]
      obtain ⟨a, b⟩ := hd
      simp only [alookup]
      split
      · rfl
      · exact ih

theorem alookup_ainsert_ne {α : Type} (l : List (String × α)) (k k' : String) (v : α)
    (h : k' ≠ k) :
    alookup (ainsert l k v) k' = alookup l k' := by
  simp only [ainsert, alookup]
  rw [if_neg h]
  exact alookup_filter_ne l k k' h

theorem mem_setAdd (l : List String) (k : String) : k ∈ setAdd l k := by
  simp only [setAdd]
  split
  · assumption
  · simp

theorem unique_citekey_eq (s : RepoState) (base : String) (n : Nat)
    (h1 : base ++ _base27 n ∉ s.citekeys)
    (h2 : ∀ m, m < n → base ++ _base27 m ∈ s.citekeys) :
    unique_citekey s base = base ++ _base27 n := by
  unfold unique_citekey
  have hf : Nat.find (exists_free_suffix base s.citekeys) = n :=
    (Nat.find_eq_iff _).mpr ⟨h1, fun m hm => not_not_intro (h2 m hm)⟩
  rw [hf]

theorem push_paper_files (s : RepoState) (p : Paper) (ow ev : Bool) (now : Nat) :
    (push_paper s p ow ev now).state.db.files = s.db.files := by
  unfold push_paper push_metadata push_bibdata
  split_ifs <;> rfl

theorem push_paper_docfile (s : RepoState) (p : Paper) (ow ev : Bool) (now : Nat) :
    (push_paper s p ow ev now).paper.metadata.docfile = p.metadata.docfile := by
  unfold push_paper
  split_ifs <;> rfl

theorem push_paper_meta_ne (s : RepoState) (p : Paper) (ow ev : Bool) (now : Nat)
    (k : String) (hk : k ≠ p.citekey) :
    alookup (push_paper s p ow ev now).state.db.meta k = alookup s.db.meta k := by
  unfold push_paper push_metadata push_bibdata
  split_ifs <;> simp [alookup_ainsert_ne _ _ _ _ hk]

theorem rename_note_caught_files (db : DataCache) (o n : String) :
    (rename_note_caught db o n).files = db.files := by
  unfold rename_note_caught
  split <;> rfl

theorem rename_note_caught_meta (db : DataCache) (o n : String) :
    (rename_note_caught db o n).meta = db.meta := by
  unfold rename_note_caught
  split <;> rfl

theorem remove_paper_files_of_meta (s : RepoState) (ck : String) (m0 : Metadata)
    (hm : alookup s.db.meta ck = some m0) (dp0 : String) (hdf : m0.docfile = some dp0) :
    (remove_paper s ck true false).state.db.files = s.db.files.erase dp0 := by
  unfold remove_paper remove_note remove_doc dbRemove
  rw [hm]
  simp only [hdf]
  split_ifs <;> rfl

/-- C1: for every paper with a valid citekey whose push succeeds, pulling
that citekey from the resulting repository returns a Paper whose citekey,
bibdata and metadata equal those of the pushed paper (the paper as the
caller holds it after the push, its added timestamp stamped). -/
theorem push_pull_roundtrip (s : RepoState) (p : Paper) (overwrite event : Bool)
    (now : Nat) (h : (push_paper s p overwrite event now).err = none) :
    pull_paper (push_paper s p overwrite event now).state p.citekey =
      Except.ok (push_paper s p overwrite event now).paper := by
  simp only [push_paper] at h ⊢
  split_ifs at h ⊢ with h1 h2 h3
  all_goals
    simp only [pull_paper, dbExists, push_metadata, push_bibdata, alookup_ainsert,
      Option.isSome_some, Bool.and_self, Bool.true_and, Bool.not_true, Bool.false_or,
      Bool.or_true, if_true]

/-- Witness for C1 at a concrete paper pushed into an empty repository. -/
theorem push_pull_roundtrip_witness :
    (push_paper (mkKeys []) samplePaper false true 5).err = none ∧
    pull_paper (push_paper (mkKeys []) samplePaper false true 5).state samplePaper.citekey =
      Except.ok (push_paper (mkKeys []) samplePaper false true 5).paper :=
  ⟨by decide, push_pull_roundtrip (mkKeys []) samplePaper false true 5 (by decide)⟩

/-- C2: pushing a paper whose (valid) citekey is already present — in the
content store's bibdata artifacts or in the citekey index — with
overwrite=false raises CiteKeyCollision, mutates nothing (the result state
is the input state), fires no event and leaves the caller's paper
untouched. -/
theorem push_collision_rejected (s : RepoState) (p : Paper) (event : Bool) (now : Nat)
    (hvalid : check_citekey p.citekey = true)
    (hpresent : dbExists s.db p.citekey false = true ∨ p.citekey ∈ s.citekeys) :
    push_paper s p false event now = ⟨p, s, [], some RepoError.citeKeyCollision⟩ := by
  unfold push_paper
  rw [if_neg (by simp [hvalid]), if_pos ⟨by simp, hpresent⟩]

/-- Witness for C2: pushing smith2020 into a repository that already
indexes smith2020. -/
theorem push_collision_rejected_witness :
    check_citekey samplePaper.citekey = true ∧
    samplePaper.citekey ∈ (mkKeys ["smith2020"]).citekeys ∧
    push_paper (mkKeys ["smith2020"]) samplePaper false true 5 =
      ⟨samplePaper, mkKeys ["smith2020"], [], some RepoError.citeKeyCollision⟩ :=
  ⟨by decide, by decide,
    push_collision_rejected (mkKeys ["smith2020"]) samplePaper true 5 (by decide)
      (Or.inr (by decide))⟩

/-- C3: unique_citekey returns the base key itself when it is free, and
otherwise the base key extended by the first suffix of the bijective
base-26 sequence (the first positive index whose key is absent, every
smaller positive index being taken); concretely, with smith2020 taken it
returns smith2020a, with smith2020 and smith2020a taken it returns
smith2020b, and after 26 collisions it returns smith2020aa. -/
theorem unique_citekey_first_free (s : RepoState) (base : String) :
    (base ∉ s.citekeys → unique_citekey s base = base)
  ∧ (base ∈ s.citekeys →
      ∃ n, 0 < n ∧ unique_citekey s base = base ++ _base27 n ∧
        base ++ _base27 n ∉ s.citekeys ∧
        ∀ m, 0 < m → m < n → base ++ _base27 m ∈ s.citekeys)
  ∧ unique_citekey (mkKeys ["smith2020"]) "smith2020" = "smith2020a"
  ∧ unique_citekey (mkKeys ["smith2020", "smith2020a"]) "smith2020" = "smith2020b"
  ∧ unique_citekey (mkKeys smith27) "smith2020" = "smith2020aa" := by
  refine ⟨?_, ?_, ?_, ?_, ?_⟩
  · intro hfree
    have h := unique_citekey_eq s base 0 (by simpa [base27_zero] using hfree)
      (by intro m hm; omega)
    simpa [base27_zero] using h
  · intro htaken
    refine ⟨Nat.find (exists_free_suffix base s.citekeys), ?_, rfl,
      Nat.find_spec (exists_free_suffix base s.citekeys), ?_⟩
    · rw [Nat.pos_iff_ne_zero]
      intro h0
      have hs := Nat.find_spec (exists_free_suffix base s.citekeys)
      rw [h0] at hs
      rw [base27_zero, String.append_empty] at hs
      exact hs htaken
    · intro m hm0 hmn
      have := Nat.find_min (exists_free_suffix base s.citekeys) hmn
      simpa using this
  · have h := unique_citekey_eq (mkKeys ["smith2020"]) "smith2020" 1
      (by simp [_base27]; decide)
      (by intro m hm; interval_cases m; simp [base27_zero, mkKeys])
    rw [h]; simp [_base27]; decide
  · have h := unique_citekey_eq (mkKeys ["smith2020", "smith2020a"]) "smith2020" 2
      (by simp [_base27]; decide)
      (by intro m hm; interval_cases m <;> (simp [_base27, mkKeys]; try decide))
    rw [h]; simp [_base27]; decide
  · have h := unique_citekey_eq (mkKeys smith27) "smith2020" 27
      (by simp [_base27, smith27, mkKeys]; decide)
      (by intro m hm; interval_cases m <;> (simp [_base27, mkKeys, smith27]; try decide))
    rw [h]; simp [_base27]; decide

/-- Witness for C3 on an empty repository: a free base key is returned
unchanged. -/
theorem unique_citekey_first_free_witness :
    "x" ∉ (mkKeys []).citekeys ∧ unique_citekey (mkKeys []) "x" = "x" :=
  ⟨by decide, (unique_citekey_first_free (mkKeys []) "x").1 (by decide)⟩

/-- C4: removing a citekey that is not in the repository is NOT a silent
no-op: the code reaches Python set.remove on the citekey index, which
raises KeyError (after having fired the RemoveEvent), contradicting the
function's own docstring and the spec. This theorem evaluates the code at
the failing input: an empty repository and citekey missing. -/
theorem remove_missing_raises_keyerror :
    remove_paper (mkKeys []) "missing" true true =
      ⟨mkKeys [], [Event.remove "missing"], some RepoError.keyError⟩ := by
  decide

/-- Counterexample for C5: the final deletion step of a rename runs with
remove_doc=true (the Python default), not remove_doc=false. On a paper
whose attached document is an external file (outside the docs directory),
a successful rename deletes that document: the file ext.pdf is present
before and gone afterwards — impossible if the deletion step were invoked
with remove_doc=false, which never touches document files. -/
theorem rename_deletes_external_doc :
    (rename_paper extState extPaper (some "new") none 0).err = none ∧
    "ext.pdf" ∈ extState.db.files ∧
    "ext.pdf" ∉ (rename_paper extState extPaper (some "new") none 0).state.db.files := by
  decide

/-- C5 amended: the rename's final deletion runs with remove_doc=true, yet
a document that was relocated into the docs directory survives a
successful rename: provided the old stored metadata's document path is not
the new managed path, the relocated file (at the new managed path) is
still present in the final store, and the caller's paper points at it. -/
theorem rename_preserves_relocated_doc (s : RepoState) (p : Paper) (newCk : String)
    (now : Nat) (dp dp0 : String) (m0 : Metadata)
    (hne : p.citekey ≠ newCk)
    (hdoc : p.metadata.docfile = some dp)
    (hman : in_docsdir (some dp) = true)
    (hold : alookup s.db.meta p.citekey = some m0)
    (hdf : m0.docfile = some dp0)
    (hdpne : dp0 ≠ docsdirPath newCk)
    (herr : (rename_paper s p (some newCk) none now).err = none) :
    docsdirPath newCk ∈ (rename_paper s p (some newCk) none now).state.db.files ∧
    (rename_paper s p (some newCk) none now).paper.metadata.docfile =
      some (docsdirPath newCk) := by
  unfold rename_paper at herr ⊢
  simp only [Option.getD_none, Option.getD_some] at herr ⊢
  rw [if_neg hne] at herr ⊢
  by_cases hcol : newCk ∈ s.citekeys
  · rw [if_pos hcol] at herr
    simp at herr
  rw [if_neg hcol] at herr ⊢
  simp only [Paper.docpath, Paper.setDocpath, hdoc, hman, if_true, rename_doc] at herr ⊢
  set R := push_paper
      { citekeys := s.citekeys,
        db :=
          rename_note_caught
            { bib := s.db.bib, meta := s.db.meta,
              files := setAdd (s.db.files.erase dp) (docsdirPath newCk),
              notes := s.db.notes }
            p.citekey newCk }
      { citekey := newCk, bibdata := p.bibdata,
        metadata :=
          { tags := p.metadata.tags, added := p.metadata.added,
            docfile := some (docsdirPath newCk) } }
      false false now with hRdef
  split at herr
  next x e heq => simp at herr
  next x heq =>
  split at herr
  next x2 e2 heq2 => simp at herr
  next x2 heq2 =>
  simp only [heq, heq2]
  have hfiles : R.state.db.files = setAdd (s.db.files.erase dp) (docsdirPath newCk) := by
    rw [hRdef, push_paper_files, rename_note_caught_files]
  have hmeta : alookup R.state.db.meta p.citekey = some m0 := by
    rw [hRdef, push_paper_meta_ne _ _ _ _ _ _ (by simpa using hne), rename_note_caught_meta]
    exact hold
  constructor
  · show docsdirPath newCk ∈ (remove_paper R.state p.citekey true false).state.db.files
    rw [remove_paper_files_of_meta _ _ m0 hmeta dp0 hdf, hfiles]
    exact (List.mem_erase_of_ne (Ne.symm hdpne)).mpr (mem_setAdd _ _)
  · show R.paper.metadata.docfile = some (docsdirPath newCk)
    rw [hRdef, push_paper_docfile]

/-- Witness for the amended C5: renaming old to new with a managed
document docs/old keeps the relocated document docs/new. -/
theorem rename_preserves_relocated_doc_witness :
    (rename_paper docState docPaper (some "new") none 0).err = none ∧
    docsdirPath "new" ∈ (rename_paper docState docPaper (some "new") none 0).state.db.files ∧
    (rename_paper docState docPaper (some "new") none 0).paper.metadata.docfile =
      some (docsdirPath "new") :=
  ⟨by decide,
    (rename_preserves_relocated_doc docState docPaper "new" 0 "docs/old" "docs/old" docMeta
      (by decide) (by decide) (by decide) (by decide) (by decide) (by decide) (by decide)).1,
    (rename_preserves_relocated_doc docState docPaper "new" 0 "docs/old" "docs/old" docMeta
      (by decide) (by decide) (by decide) (by decide) (by decide) (by decide) (by decide)).2⟩

/-- C6: pull returns a Paper exactly when the content store has both the
bibdata and the metadata artifact for the citekey; when either one (or
both) is absent it fails with InvalidReference. -/
theorem pull_requires_both (s : RepoState) (ck : String) :
    ((∃ p, pull_paper s ck = Except.ok p) ↔
      ((alookup s.db.bib ck).isSome = true ∧ (alookup s.db.meta ck).isSome = true))
  ∧ (¬ ((alookup s.db.bib ck).isSome = true ∧ (alookup s.db.meta ck).isSome = true) →
      pull_paper s ck = Except.error RepoError.invalidReference) := by
  unfold pull_paper dbExists
  constructor
  · constructor
    · intro ⟨q, hq⟩
      by_cases hb : (alookup s.db.bib ck).isSome = true
      · by_cases hm : (alookup s.db.meta ck).isSome = true
        · exact ⟨hb, hm⟩
        · rw [if_neg (by simp [hb, hm])] at hq
          simp at hq
      · rw [if_neg (by simp [hb])] at hq
        simp at hq
    · intro ⟨hb, hm⟩
      rw [if_pos (by simp [hb, hm])]
      obtain ⟨b, hb'⟩ := Option.isSome_iff_exists.mp hb
      obtain ⟨m, hm'⟩ := Option.isSome_iff_exists.mp hm
      rw [hb', hm']
      exact ⟨_, rfl⟩
  · intro hnot
    rw [if_neg (by simp only [Bool.and_eq_true, Bool.or_eq_true]; tauto)]

/-- Witness for C6 on an empty store: pull fails with InvalidReference. -/
theorem pull_requires_both_witness :
    ¬ ((alookup (mkKeys []).db.bib "k").isSome = true ∧
        (alookup (mkKeys []).db.meta "k").isSome = true) ∧
    pull_paper (mkKeys []) "k" = Except.error RepoError.invalidReference :=
  ⟨by decide, (pull_requires_both (mkKeys []) "k").2 (by decide)⟩

/-- C7: renaming to a new citekey that differs from the old one and is
already in the citekey index fails with CiteKeyCollision and leaves the
repository state — index and all stores, at both the old and the new
citekey — exactly as it was. -/
theorem rename_collision_rejected (s : RepoState) (p : Paper) (newCk : String)
    (oldCk : Option String) (now : Nat)
    (hne : oldCk.getD p.citekey ≠ newCk)
    (hmem : newCk ∈ s.citekeys) :
    (rename_paper s p (some newCk) oldCk now).err = some RepoError.citeKeyCollision ∧
    (rename_paper s p (some newCk) oldCk now).state = s := by
  unfold rename_paper
  simp only [Option.getD_some]
  rw [if_neg hne, if_pos hmem]
  exact ⟨rfl, rfl⟩

/-- Witness for C7: renaming smith2020 to the already-present citekey
taken. -/
theorem rename_collision_rejected_witness :
    (none : Option String).getD samplePaper.citekey ≠ "taken" ∧
    "taken" ∈ (mkKeys ["taken"]).citekeys ∧
    ((rename_paper (mkKeys ["taken"]) samplePaper (some "taken") none 0).err =
        some RepoError.citeKeyCollision ∧
      (rename_paper (mkKeys ["taken"]) samplePaper (some "taken") none 0).state =
        mkKeys ["taken"]) :=
  ⟨by decide, by decide,
    rename_collision_rejected (mkKeys ["taken"]) samplePaper "taken" none 0 (by decide)
      (by decide)⟩

/-- Counterexample for C8: rename with old_citekey equal to new_citekey is
not the same as push(paper, overwrite=true, emit_event=false) for the
unmodified paper: with a paper whose citekey is a, calling rename with
both key arguments set to b leaves a repository state holding b, while the
plain push leaves one holding a. -/
theorem rename_push_states_differ :
    (rename_paper (mkKeys []) paperA (some "b") (some "b") 0).state ≠
      (push_paper (mkKeys []) paperA true false 0).state := by
  decide

/-- C8 amended: rename with old_citekey equal to new_citekey (after the
defaulting from paper.citekey) coincides — same caller-visible paper, same
state, same events, same outcome — with push(paper', overwrite=true,
emit_event=false) where paper' is the paper with its citekey first set to
new_citekey; when new_citekey equals the paper's citekey (in particular
when both arguments are defaulted) paper' is the paper itself. -/
theorem rename_same_key_is_push (s : RepoState) (p : Paper) (newCk oldCk : Option String)
    (now : Nat) (heq : oldCk.getD p.citekey = newCk.getD p.citekey) :
    rename_paper s p newCk oldCk now =
      push_paper s { p with citekey := newCk.getD p.citekey } true false now := by
  unfold rename_paper
  rw [if_pos heq]

/-- Witness for the amended C8 with both key arguments k explicitly
equal. -/
theorem rename_same_key_is_push_witness :
    (some "k" : Option String).getD samplePaper.citekey =
      (some "k" : Option String).getD samplePaper.citekey ∧
    rename_paper (mkKeys []) samplePaper (some "k") (some "k") 0 =
      push_paper (mkKeys [])
        { samplePaper with citekey := (some "k" : Option String).getD samplePaper.citekey }
        true false 0 :=
  ⟨rfl, rename_same_key_is_push (mkKeys []) samplePaper (some "k") (some "k") 0 rfl⟩

/-- C9: the unique_citekey search terminates: the suffix function _base27
is injective, so over any (finite) citekey index some suffix index yields
a free key, unique_citekey returns the key of the first such index, and
every earlier index is taken. -/
theorem unique_citekey_terminates :
    Function.Injective _base27 ∧
    ∀ (s : RepoState) (base : String),
      ∃ n, base ++ _base27 n ∉ s.citekeys ∧
        unique_citekey s base = base ++ _base27 n ∧
        ∀ m, m < n → base ++ _base27 m ∈ s.citekeys := by
  refine ⟨base27_injective, fun s base =>
    ⟨Nat.find (exists_free_suffix base s.citekeys),
      Nat.find_spec (exists_free_suffix base s.citekeys), rfl, fun m hm => ?_⟩⟩
  have := Nat.find_min (exists_free_suffix base s.citekeys) hm
  simpa using this

/-- C10: rename assigns the new citekey to the in-memory paper before the
collision check, so on a CiteKeyCollision failure the caller's paper
already carries the new citekey while the stores and index are
unmodified. -/
theorem rename_collision_mutates_citekey (s : RepoState) (p : Paper) (newCk : String)
    (oldCk : Option String) (now : Nat)
    (hne : oldCk.getD p.citekey ≠ newCk)
    (hmem : newCk ∈ s.citekeys) :
    (rename_paper s p (some newCk) oldCk now).paper.citekey = newCk ∧
    (rename_paper s p (some newCk) oldCk now).err = some RepoError.citeKeyCollision ∧
    (rename_paper s p (some newCk) oldCk now).state = s := by
  unfold rename_paper
  simp only [Option.getD_some]
  rw [if_neg hne, if_pos hmem]
  exact ⟨rfl, rfl, rfl⟩

/-- Witness for C10: a failing rename of the paper with citekey a to the
taken citekey b, with the old key passed explicitly. -/
theorem rename_collision_mutates_citekey_witness :
    (some "smith2020" : Option String).getD paperA.citekey ≠ "b" ∧
    "b" ∈ (mkKeys ["b"]).citekeys ∧
    ((rename_paper (mkKeys ["b"]) paperA (some "b") (some "smith2020") 0).paper.citekey = "b" ∧
      (rename_paper (mkKeys ["b"]) paperA (some "b") (some "smith2020") 0).err =
        some RepoError.citeKeyCollision ∧
      (rename_paper (mkKeys ["b"]) paperA (some "b") (some "smith2020") 0).state = mkKeys ["b"]) :=
  ⟨by decide, by decide,
    rename_collision_mutates_citekey (mkKeys ["b"]) paperA "b" (some "smith2020") 0 (by decide)
      (by decide)⟩
